import Mathlib

/-!
Verification of the fleet lifecycle manager in
nucypher/utilities/clouddeploy.py against its specification.

The Python module keeps one JSON document per (network, namespace) holding
the fleet state: an ordered map of node name to instance record, a
seed-network flag, an optional seed node address, and (for the AWS driver)
identifiers of shared resources.  We embed the relevant operations as pure
Lean functions over explicit state.  Python dictionaries are modelled as
insertion-ordered association lists: update of an existing key keeps its
position, insertion of a new key appends at the end, exactly as Python
dicts behave.
-/

namespace CloudDeploy

/-- Lookup in an insertion-ordered association list (Python dict read). -/
def alookup {α : Type} (l : List (String × α)) (k : String) : Option α :=
  match l with
  | [] => none
  | (k₀, v₀) :: rest => if k₀ = k then some v₀ else alookup rest k

/-- Write to an insertion-ordered association list (Python dict write):
an existing key is updated in place, a new key is appended at the end. -/
def aset {α : Type} (l : List (String × α)) (k : String) (v : α) :
    List (String × α) :=
  match l with
  | [] => [(k, v)]
  | (k₀, v₀) :: rest =>
    if k₀ = k then (k, v) :: rest else (k₀, v₀) :: aset rest k v

/-- Key removal from an association list (Python del / pop). -/
def aerase {α : Type} (l : List (String × α)) (k : String) :
    List (String × α) :=
  match l with
  | [] => []
  | (k₀, v₀) :: rest =>
    if k₀ = k then rest else (k₀, v₀) :: aerase rest k

@[simp] theorem alookup_nil {α : Type} (k : String) :
    alookup ([] : List (String × α)) k = none := rfl

@[simp] theorem alookup_cons {α : Type} (k₀ k : String) (v₀ : α) (rest) :
    alookup ((k₀, v₀) :: rest) k
      = if k₀ = k then some v₀ else alookup rest k := rfl

theorem alookup_aset_self {α : Type} (l : List (String × α)) (k : String)
    (v : α) : alookup (aset l k v) k = some v := by
  induction l with
  | nil => simp [aset]
  | cons hd tl ih =>
    obtain ⟨k₀, v₀⟩ := hd
    by_cases h : k₀ = k
    · simp [aset, h]
    · simp [aset, h, ih]

theorem alookup_aset_ne {α : Type} (l : List (String × α)) (k k' : String)
    (v : α) (h : k ≠ k') : alookup (aset l k v) k' = alookup l k' := by
  induction l with
  | nil => simp [aset, h]
  | cons hd tl ih =>
    obtain ⟨k₀, v₀⟩ := hd
    by_cases h₀ : k₀ = k
    · subst h₀
      simp [aset, h]
    · simp only [aset, if_neg h₀, alookup_cons, ih]

theorem alookup_aerase_ne {α : Type} (l : List (String × α)) (k k' : String)
    (h : k ≠ k') : alookup (aerase l k) k' = alookup l k' := by
  induction l with
  | nil => simp [aerase]
  | cons hd tl ih =>
    obtain ⟨k₀, v₀⟩ := hd
    by_cases h₀ : k₀ = k
    · subst h₀
      simp [aerase, h]
    · simp only [aerase, if_neg h₀, alookup_cons, ih]

theorem alookup_eq_none_of_not_mem {α : Type} (l : List (String × α))
    (k : String) (h : k ∉ l.map Prod.fst) : alookup l k = none := by
  induction l with
  | nil => rfl
  | cons hd tl ih =>
    obtain ⟨k₀, v₀⟩ := hd
    simp only [List.map_cons, List.mem_cons] at h
    push_neg at h
    simp only [alookup_cons, if_neg (Ne.symm h.1)]
    exact ih h.2

theorem alookup_aerase_self {α : Type} (l : List (String × α)) (k : String)
    (hnd : (l.map Prod.fst).Nodup) : alookup (aerase l k) k = none := by
  induction l with
  | nil => simp [aerase]
  | cons hd tl ih =>
    obtain ⟨k₀, v₀⟩ := hd
    simp only [List.map_cons, List.nodup_cons] at hnd
    by_cases h₀ : k₀ = k
    · subst h₀
      simp only [aerase, if_pos rfl]
      exact alookup_eq_none_of_not_mem tl k₀ hnd.1
    · simp only [aerase, if_neg h₀, alookup_cons, if_neg h₀]
      exact ih hnd.2

/-- An instance record as stored under config.instances in the JSON
state: the owning provider, the public address, the ordered list of
deployment attributes, and the remaining free-form fields
(blockchain_provider, nucypher_image, sentry_dsn, gas_strategy and the
labels captured from ansible output).  Field values are Option String
because Python stores None for an absent sentry DSN. -/
structure NodeData where
  provider : String
  publicaddress : String
  deploy_attrs : List (String × String)
  fields : List (String × Option String)
deriving Repr, DecidableEq

/-- The part of the persisted fleet config that the provider-agnostic
engine manipulates: the instances map, the seed_network flag and the
optional seed_node address. -/
structure Config where
  instances : List (String × NodeData)
  seed_network : Bool
  seed_node : Option String
deriving Repr, DecidableEq

/-- Result of BaseCloudNodeConfigurator.create_nodes: the final config
(the state persisted by the per-node _write_config calls), the list of
node names for which a provider create call was issued, in order, and
whether the loop ran to completion (false when a create call raised,
aborting the loop). -/
structure CreateResult where
  config : Config
  calls : List String
  ok : Bool
deriving Repr, DecidableEq

/-- The state mutation performed by one successful iteration of the
create_nodes loop: tag the fresh record with the provider name, insert
it under the node name, and record its public address as seed_node when
seed_network is on and no seed_node exists yet (lines 303-307). -/
def afterCreate (provider_name : String) (cfg : Config) (n : String)
    (nd : NodeData) : Config :=
  { cfg with
    instances := aset cfg.instances n { nd with provider := provider_name },
    seed_node :=
      if cfg.seed_network && cfg.seed_node.isNone
      then some nd.publicaddress else cfg.seed_node }

/-- BaseCloudNodeConfigurator.create_nodes (clouddeploy.py lines
286-310).  For each requested name not already present in
config.instances it issues a provider create call (the oracle create,
returning none when the provider API raises), applies afterCreate, and
persists.  A raising create call propagates out of the Python loop, so
the remaining names are not visited; the partially updated (and
persisted) config is what survives. -/
def create_nodes (create : String → Option NodeData) (provider_name : String) :
    Config → List String → CreateResult
  | cfg, [] => ⟨cfg, [], true⟩
  | cfg, n :: rest =>
    match alookup cfg.instances n with
    | some _ => create_nodes create provider_name cfg rest
    | none =>
      match create n with
      | none => ⟨cfg, [n], false⟩
      | some nd =>
        let r := create_nodes create provider_name
          (afterCreate provider_name cfg n nd) rest
        ⟨r.config, n :: r.calls, r.ok⟩

theorem create_nodes_cons_present (create : String → Option NodeData)
    (p : String) (cfg : Config) (n : String) (rest : List String)
    (v : NodeData) (hx : alookup cfg.instances n = some v) :
    create_nodes create p cfg (n :: rest) = create_nodes create p cfg rest := by
  simp [create_nodes, hx]

theorem create_nodes_cons_fail (create : String → Option NodeData)
    (p : String) (cfg : Config) (n : String) (rest : List String)
    (hx : alookup cfg.instances n = none) (hc : create n = none) :
    create_nodes create p cfg (n :: rest) = ⟨cfg, [n], false⟩ := by
  simp [create_nodes, hx, hc]

theorem create_nodes_cons_create (create : String → Option NodeData)
    (p : String) (cfg : Config) (n : String) (rest : List String)
    (nd : NodeData) (hx : alookup cfg.instances n = none)
    (hc : create n = some nd) :
    create_nodes create p cfg (n :: rest)
      = ⟨(create_nodes create p (afterCreate p cfg n nd) rest).config,
         n :: (create_nodes create p (afterCreate p cfg n nd) rest).calls,
         (create_nodes create p (afterCreate p cfg n nd) rest).ok⟩ := by
  simp [create_nodes, hx, hc]

theorem alookup_afterCreate_ne (p : String) (cfg : Config) (n : String)
    (nd : NodeData) (m : String) (h : n ≠ m) :
    alookup (afterCreate p cfg n nd).instances m = alookup cfg.instances m :=
  alookup_aset_ne _ _ _ _ h

theorem alookup_afterCreate_self (p : String) (cfg : Config) (n : String)
    (nd : NodeData) :
    alookup (afterCreate p cfg n nd).instances n
      = some { nd with provider := p } :=
  alookup_aset_self _ _ _

theorem create_nodes_mono (create : String → Option NodeData) (p : String)
    (cfg : Config) (names : List String) (m : String) (r : NodeData)
    (h : alookup cfg.instances m = some r) :
    alookup (create_nodes create p cfg names).config.instances m = some r := by
  induction names generalizing cfg with
  | nil => simpa [create_nodes] using h
  | cons n rest ih =>
    cases hx : alookup cfg.instances n with
    | some v =>
      rw [create_nodes_cons_present create p cfg n rest v hx]
      exact ih cfg h
    | none =>
      cases hc : create n with
      | none =>
        rw [create_nodes_cons_fail create p cfg n rest hx hc]
        exact h
      | some nd =>
        rw [create_nodes_cons_create create p cfg n rest nd hx hc]
        apply ih
        have hnm : n ≠ m := fun he => by rw [he, h] at hx; cases hx
        rw [alookup_afterCreate_ne p cfg n nd m hnm]
        exact h

theorem create_nodes_all_present (create : String → Option NodeData)
    (p : String) (cfg : Config) (names : List String)
    (hok : (create_nodes create p cfg names).ok = true) (m : String)
    (hm : m ∈ names) :
    (alookup (create_nodes create p cfg names).config.instances m).isSome := by
  induction names generalizing cfg with
  | nil => cases hm
  | cons n rest ih =>
    cases hx : alookup cfg.instances n with
    | some v =>
      rw [create_nodes_cons_present create p cfg n rest v hx] at hok ⊢
      rcases List.mem_cons.mp hm with he | hm'
      · subst he
        rw [create_nodes_mono create p cfg rest m v hx]
        rfl
      · exact ih cfg hok hm'
    | none =>
      cases hc : create n with
      | none =>
        rw [create_nodes_cons_fail create p cfg n rest hx hc] at hok
        cases hok
      | some nd =>
        rw [create_nodes_cons_create create p cfg n rest nd hx hc] at hok ⊢
        rcases List.mem_cons.mp hm with he | hm'
        · subst he
          rw [create_nodes_mono _ _ _ _ m _
            (alookup_afterCreate_self p cfg m nd)]
          rfl
        · exact ih _ hok hm'

theorem create_nodes_noop (create : String → Option NodeData) (p : String)
    (cfg : Config) (names : List String)
    (h : ∀ m ∈ names, (alookup cfg.instances m).isSome) :
    create_nodes create p cfg names = ⟨cfg, [], true⟩ := by
  induction names with
  | nil => rfl
  | cons n rest ih =>
    have hn := h n (List.mem_cons_self n rest)
    cases hx : alookup cfg.instances n with
    | some v =>
      rw [create_nodes_cons_present create p cfg n rest v hx]
      exact ih fun m hm => h m (List.mem_cons_of_mem _ hm)
    | none => rw [hx] at hn; cases hn

theorem create_nodes_calls_missing (create : String → Option NodeData)
    (p : String) (cfg : Config) (names : List String) :
    ∀ m ∈ (create_nodes create p cfg names).calls,
      alookup cfg.instances m = none := by
  induction names generalizing cfg with
  | nil => intro m hm; cases hm
  | cons n rest ih =>
    intro m hm
    cases hx : alookup cfg.instances n with
    | some v =>
      rw [create_nodes_cons_present create p cfg n rest v hx] at hm
      exact ih cfg m hm
    | none =>
      cases hc : create n with
      | none =>
        rw [create_nodes_cons_fail create p cfg n rest hx hc] at hm
        rcases List.mem_cons.mp hm with he | he
        · rwa [he]
        · cases he
      | some nd =>
        rw [create_nodes_cons_create create p cfg n rest nd hx hc] at hm
        rcases List.mem_cons.mp hm with he | he
        · rwa [he]
        · have h' := ih _ m he
          by_cases hnm : n = m
          · rw [← hnm] at h'
            rw [alookup_afterCreate_self] at h'
            cases h'
          · rwa [alookup_afterCreate_ne p cfg n nd m hnm] at h'

theorem create_nodes_created_persist (create : String → Option NodeData)
    (p : String) (cfg : Config) (names : List String) :
    ∀ m ∈ (create_nodes create p cfg names).calls, (create m).isSome = true →
      (alookup (create_nodes create p cfg names).config.instances m).isSome
        = true := by
  induction names generalizing cfg with
  | nil => intro m hm; cases hm
  | cons n rest ih =>
    intro m hm hs
    cases hx : alookup cfg.instances n with
    | some v =>
      rw [create_nodes_cons_present create p cfg n rest v hx] at hm ⊢
      exact ih cfg m hm hs
    | none =>
      cases hc : create n with
      | none =>
        rw [create_nodes_cons_fail create p cfg n rest hx hc] at hm
        rcases List.mem_cons.mp hm with he | he
        · subst he; rw [hc] at hs; cases hs
        · cases he
      | some nd =>
        rw [create_nodes_cons_create create p cfg n rest nd hx hc] at hm ⊢
        rcases List.mem_cons.mp hm with he | he
        · subst he
          rw [create_nodes_mono _ _ _ _ m _
            (alookup_afterCreate_self p cfg m nd)]
          rfl
        · exact ih _ m he hs

/-- Claim C1: calling create_nodes twice in sequence with no external
state change (same create oracle, no intervening mutation) leaves the
whole instances map - in particular its restriction to the requested set
- identical after the second call, and the second call issues no
provider create calls.  The hypothesis states that the first call ran to
completion. -/
theorem create_nodes_idempotent (create : String → Option NodeData)
    (p : String) (cfg : Config) (names : List String)
    (h : (create_nodes create p cfg names).ok = true) :
    create_nodes create p (create_nodes create p cfg names).config names
      = ⟨(create_nodes create p cfg names).config, [], true⟩ :=
  create_nodes_noop _ _ _ _
    (fun m hm => create_nodes_all_present create p cfg names h m hm)

/-- A create oracle that always succeeds, assigning a distinct address
per node name. -/
def sampleCreate : String → Option NodeData := fun n =>
  some { provider := "", publicaddress := "ip-" ++ n,
         deploy_attrs := [], fields := [] }

/-- A fresh fleet config: no instances, seeding off. -/
def emptyConfig : Config :=
  { instances := [], seed_network := false, seed_node := none }

/-- Witness for Claim C1 at a concrete input. -/
theorem create_nodes_idempotent_witness :
    create_nodes sampleCreate "digitalocean"
        (create_nodes sampleCreate "digitalocean" emptyConfig
          ["w1", "w2"]).config ["w1", "w2"]
      = ⟨(create_nodes sampleCreate "digitalocean" emptyConfig
          ["w1", "w2"]).config, [], true⟩ :=
  create_nodes_idempotent sampleCreate "digitalocean" emptyConfig
    ["w1", "w2"] (by decide)

/-- A create oracle whose provider API call fails (raises) exactly for
node n2, as DigitalOceanConfigurator.create_new_node does on a non-2xx
response. -/
def failingCreate : String → Option NodeData := fun n =>
  if n = "n2" then none
  else some { provider := "", publicaddress := "ip-" ++ n,
              deploy_attrs := [], fields := [] }

/-- Counterexample to Claim C4 as stated: in the Python loop there is no
per-node exception handling, so when the provider create call raises for
n2, the batch aborts: n3 is never attempted (no create call, no record),
even though n1 was created and persisted. -/
theorem create_nodes_batch_aborts_on_failure :
    (create_nodes failingCreate "digitalocean" emptyConfig
        ["n1", "n2", "n3"]).ok = false
  ∧ alookup (create_nodes failingCreate "digitalocean" emptyConfig
        ["n1", "n2", "n3"]).config.instances "n3" = none
  ∧ "n3" ∉ (create_nodes failingCreate "digitalocean" emptyConfig
        ["n1", "n2", "n3"]).calls
  ∧ (alookup (create_nodes failingCreate "digitalocean" emptyConfig
        ["n1", "n2", "n3"]).config.instances "n1").isSome = true := by
  decide

/-- Claim C4 (amended): when a provider create call fails for one node
in a batch, the loop aborts (the remaining names are not processed), but
(a) records already present are never lost, (b) every node of the batch
whose create call succeeded is persisted in the resulting config, and
(c) a subsequent create_nodes with the same names issues create calls
only for names that have no persisted record. -/
theorem create_nodes_partial_failure (create : String → Option NodeData)
    (p : String) (cfg : Config) (names : List String) :
    (∀ m r, alookup cfg.instances m = some r →
        alookup (create_nodes create p cfg names).config.instances m = some r)
  ∧ (∀ m ∈ (create_nodes create p cfg names).calls,
        (create m).isSome = true →
        (alookup (create_nodes create p cfg names).config.instances m).isSome
          = true)
  ∧ (∀ m ∈ (create_nodes create p
        (create_nodes create p cfg names).config names).calls,
        alookup (create_nodes create p cfg names).config.instances m = none) :=
  ⟨fun m r h => create_nodes_mono create p cfg names m r h,
   fun m hm hs => create_nodes_created_persist create p cfg names m hm hs,
   fun m hm => create_nodes_calls_missing create p _ names m hm⟩

/-- Witness for Claim C4 (amended) at the concrete failing batch: n1
(created before the failure) is persisted, and the retry only attempts
the missing n2. -/
theorem create_nodes_partial_failure_witness :
    (alookup (create_nodes failingCreate "digitalocean" emptyConfig
        ["n1", "n2", "n3"]).config.instances "n1").isSome = true
  ∧ alookup (create_nodes failingCreate "digitalocean" emptyConfig
        ["n1", "n2", "n3"]).config.instances "n2" = none :=
  ⟨(create_nodes_partial_failure failingCreate "digitalocean" emptyConfig
      ["n1", "n2", "n3"]).2.1 "n1" (by decide) (by decide),
   (create_nodes_partial_failure failingCreate "digitalocean" emptyConfig
      ["n1", "n2", "n3"]).2.2 "n2" (by decide)⟩

/-- GenericConfigurator.create_nodes (clouddeploy.py lines 977-1002):
every requested name receives the one supplied host_address as its
publicaddress, provider generic, and the supplied login/key/port as
deploy attributes; an existing record for the name is updated in place,
keeping its other fields.  The seed_node guard is the same as in the
base class. -/
def genericStep (cfg : Config) (n host login key port : String) : Config :=
  let base := (alookup cfg.instances n).getD
    { provider := "", publicaddress := "", deploy_attrs := [], fields := [] }
  let nd : NodeData :=
    { base with
      publicaddress := host,
      provider := "generic",
      deploy_attrs :=
        [("ansible_ssh_private_key_file", key),
         ("default_user", login),
         ("ansible_port", port)] }
  { cfg with
    instances := aset cfg.instances n nd,
    seed_node :=
      if cfg.seed_network && cfg.seed_node.isNone
      then some nd.publicaddress else cfg.seed_node }

def generic_create_nodes :
    Config → List String → String → String → String → String → Config
  | cfg, [], _, _, _, _ => cfg
  | cfg, n :: rest, host, login, key, port =>
    generic_create_nodes (genericStep cfg n host login key port)
      rest host login key port

/-- The seed_node fallback in deploy_nucypher_on_existing_nodes and
update_nucypher_on_existing_nodes (lines 336-338 and 385-387): when the
fleet is seed-bearing and no seed_node is recorded, the first instance
record supplies the address.  (The Python indexes element 0 and would
raise on an empty instances map; here that case yields none, which does
not affect the preservation property, whose guard requires a present
seed_node.) -/
def ensure_seed (cfg : Config) : Config :=
  if cfg.seed_network && cfg.seed_node.isNone then
    { cfg with
      seed_node := cfg.instances.head?.map fun kv => kv.2.publicaddress }
  else cfg

/-- The seed_network/seed_node handling in
BaseCloudNodeConfigurator.__init__ (lines 226-228): the seed_network
flag is taken from the invocation when given (it is never None under the
CLI, whose default is False) else from the stored config, and when the
flag is off any stored seed_node is popped. -/
def init_seed_network (cfg : Config) (seed_network : Option Bool) : Config :=
  let sn := seed_network.getD cfg.seed_network
  let cfg' : Config := { cfg with seed_network := sn }
  if sn then cfg' else { cfg' with seed_node := none }

theorem create_nodes_seed_preserved (create : String → Option NodeData)
    (p : String) (cfg : Config) (names : List String) (a : String)
    (h : cfg.seed_node = some a) :
    (create_nodes create p cfg names).config.seed_node = some a := by
  induction names generalizing cfg with
  | nil => simpa [create_nodes] using h
  | cons n rest ih =>
    cases hx : alookup cfg.instances n with
    | some v =>
      rw [create_nodes_cons_present create p cfg n rest v hx]
      exact ih cfg h
    | none =>
      cases hc : create n with
      | none =>
        rw [create_nodes_cons_fail create p cfg n rest hx hc]
        exact h
      | some nd =>
        rw [create_nodes_cons_create create p cfg n rest nd hx hc]
        apply ih
        simp [afterCreate, h]

theorem generic_create_nodes_seed_preserved (cfg : Config)
    (names : List String) (host login key port : String) (a : String)
    (h : cfg.seed_node = some a) :
    (generic_create_nodes cfg names host login key port).seed_node
      = some a := by
  induction names generalizing cfg with
  | nil => simpa [generic_create_nodes] using h
  | cons n rest ih =>
    simp only [generic_create_nodes]
    apply ih
    simp [genericStep, h]

/-- Claim C9: the seed_node designation is set to the public address of
the first node created while the fleet is seed-bearing and no seed node
exists, and no operation that touches seed_node (create_nodes,
generic create_nodes, the deploy/update fallback, the constructor
seed_network handling) ever changes a present seed_node to a different
address while it remains present: each either keeps the value or (only
for the constructor with seeding disabled) removes it. -/
theorem seed_node_set_once :
    (∀ (create : String → Option NodeData) (p : String) (cfg : Config)
        (n : String) (rest : List String) (nd : NodeData),
        cfg.seed_network = true → cfg.seed_node = none →
        alookup cfg.instances n = none → create n = some nd →
        (create_nodes create p cfg (n :: rest)).config.seed_node
          = some nd.publicaddress)
  ∧ (∀ (create : String → Option NodeData) (p : String) (cfg : Config)
        (names : List String) (a : String), cfg.seed_node = some a →
        (create_nodes create p cfg names).config.seed_node = some a)
  ∧ (∀ (cfg : Config) (names : List String) (host login key port a : String),
        cfg.seed_node = some a →
        (generic_create_nodes cfg names host login key port).seed_node
          = some a)
  ∧ (∀ (cfg : Config) (a : String), cfg.seed_node = some a →
        (ensure_seed cfg).seed_node = some a)
  ∧ (∀ (cfg : Config) (sn : Option Bool) (a : String),
        cfg.seed_node = some a →
        (init_seed_network cfg sn).seed_node = some a ∨
        (init_seed_network cfg sn).seed_node = none) := by
  refine ⟨?_, ?_, ?_, ?_, ?_⟩
  · intro create p cfg n rest nd hsn hseed hx hc
    rw [create_nodes_cons_create create p cfg n rest nd hx hc]
    apply create_nodes_seed_preserved
    simp [afterCreate, hsn, hseed]
  · exact create_nodes_seed_preserved
  · exact generic_create_nodes_seed_preserved
  · intro cfg a h
    simp [ensure_seed, h]
  · intro cfg sn a h
    by_cases hb : sn.getD cfg.seed_network
    · left
      simp [init_seed_network, hb, h]
    · right
      simp [init_seed_network, hb]

/-- A seed-bearing fresh config. -/
def seedingConfig : Config :=
  { instances := [], seed_network := true, seed_node := none }

/-- A config that already designates a seed node. -/
def seededConfig : Config :=
  { instances := [("w1",
      { provider := "digitalocean", publicaddress := "ip-w1",
        deploy_attrs := [], fields := [] })],
    seed_network := true, seed_node := some "ip-w1" }

/-- Witness for Claim C9 at concrete inputs: the first created node of a
seed-bearing fleet becomes the seed, and a later create_nodes on a
seeded config keeps the recorded seed address. -/
theorem seed_node_set_once_witness :
    (create_nodes sampleCreate "digitalocean" seedingConfig
        ["w1", "w2"]).config.seed_node = some "ip-w1"
  ∧ (create_nodes sampleCreate "digitalocean" seededConfig
        ["w2"]).config.seed_node = some "ip-w1" :=
  ⟨seed_node_set_once.1 sampleCreate "digitalocean" seedingConfig
      "w1" ["w2"] _ rfl rfl rfl rfl,
   seed_node_set_once.2.1 sampleCreate "digitalocean" seededConfig
      ["w2"] "ip-w1" rfl⟩

/-- The address index built by update_captured_instance_data (line 529):
a dict comprehension over config.instances values keyed by
publicaddress, so for duplicate addresses the record iterated last
wins. -/
def buildAddrIndex (insts : List (String × NodeData)) :
    List (String × NodeData) :=
  insts.foldl (fun idx kv => aset idx kv.2.publicaddress kv.2) []

/-- One captured (address, value) entry merged into the index for a
given label (line 533).  A captured address with no matching instance is
a KeyError in the Python, modelled as none. -/
def applyCapture (idx : List (String × NodeData)) (label addr value : String) :
    Option (List (String × NodeData)) :=
  match alookup idx addr with
  | none => none
  | some nd =>
    some (aset idx addr { nd with fields := aset nd.fields label (some value) })

def applyLabel (label : String) :
    List (String × NodeData) → List (String × String) →
      Option (List (String × NodeData))
  | idx, [] => some idx
  | idx, (addr, value) :: rest =>
    match applyCapture idx label addr value with
    | none => none
    | some idx' => applyLabel label idx' rest

def applyResults :
    List (String × NodeData) → List (String × List (String × String)) →
      Option (List (String × NodeData))
  | idx, [] => some idx
  | idx, (label, data) :: rest =>
    match applyLabel label idx data with
    | none => none
    | some idx' => applyResults idx' rest

/-- The write-back loop of update_captured_instance_data (lines
535-537): every instance entry is replaced by the index record found
under its public address. -/
def rebuildInstances (idx insts : List (String × NodeData)) :
    List (String × NodeData) :=
  insts.map fun kv =>
    match alookup idx kv.2.publicaddress with
    | some nd => (kv.1, nd)
    | none => kv

/-- BaseCloudNodeConfigurator.update_captured_instance_data (lines
528-539): index the instance records by public address, merge each
captured (address, label, value) into the indexed record, then write the
indexed records back over the instances map and persist.  The captured
labels (worker address, rest url, nucypher version, nickname) are
distinct from the publicaddress key, so merging never changes the
address a record is indexed under. -/
def update_captured_instance_data
    (results : List (String × List (String × String))) (cfg : Config) :
    Option Config :=
  match applyResults (buildAddrIndex cfg.instances) results with
  | none => none
  | some idx =>
    some { cfg with instances := rebuildInstances idx cfg.instances }

/-- Claim C7: with two instances holding distinct public addresses, a
capture of value v₁ under label l₁ for the first address and v₂ under
l₂ for the second merges exactly into the matching records: the first
record gains only l₁ := v₁, the second only l₂ := v₂, with no
cross-contamination and nothing else modified. -/
theorem update_captured_merges_by_address
    (nA nB ip1 ip2 l1 l2 v1 v2 pA pB : String)
    (aA aB : List (String × String))
    (fA fB : List (String × Option String))
    (sn : Bool) (sd : Option String)
    (hip : ip1 ≠ ip2) (_hn : nA ≠ nB) :
    update_captured_instance_data [(l1, [(ip1, v1)]), (l2, [(ip2, v2)])]
      { instances :=
          [(nA, { provider := pA, publicaddress := ip1,
                  deploy_attrs := aA, fields := fA }),
           (nB, { provider := pB, publicaddress := ip2,
                  deploy_attrs := aB, fields := fB })],
        seed_network := sn, seed_node := sd }
    = some
      { instances :=
          [(nA, { provider := pA, publicaddress := ip1,
                  deploy_attrs := aA, fields := aset fA l1 (some v1) }),
           (nB, { provider := pB, publicaddress := ip2,
                  deploy_attrs := aB, fields := aset fB l2 (some v2) })],
        seed_network := sn, seed_node := sd } := by
  simp [update_captured_instance_data, buildAddrIndex, applyResults,
    applyLabel, applyCapture, rebuildInstances, aset, alookup,
    hip, Ne.symm hip]

/-- Witness for Claim C7 at the concrete input of the specification:
triples [(ip1, nucypher version, v1.2), (ip2, nickname, bob)] against
instances nodeA at ip1 and nodeB at ip2. -/
theorem update_captured_merges_by_address_witness :
    update_captured_instance_data
      [("nucypher version", [("ip1", "v1.2")]), ("nickname", [("ip2", "bob")])]
      { instances :=
          [("nodeA", { provider := "digitalocean", publicaddress := "ip1",
                       deploy_attrs := [], fields := [] }),
           ("nodeB", { provider := "digitalocean", publicaddress := "ip2",
                       deploy_attrs := [], fields := [] })],
        seed_network := false, seed_node := none }
    = some
      { instances :=
          [("nodeA", { provider := "digitalocean", publicaddress := "ip1",
                       deploy_attrs := [],
                       fields := [("nucypher version", some "v1.2")] }),
           ("nodeB", { provider := "digitalocean", publicaddress := "ip2",
                       deploy_attrs := [],
                       fields := [("nickname", some "bob")] })],
        seed_network := false, seed_node := none } :=
  update_captured_merges_by_address "nodeA" "nodeB" "ip1" "ip2"
    "nucypher version" "nickname" "v1.2" "bob" "digitalocean" "digitalocean"
    [] [] [] [] false none (by decide) (by decide)

theorem alookup_genericStep_self (cfg : Config)
    (n host login key port : String) :
    ∃ nd, alookup (genericStep cfg n host login key port).instances n
        = some nd ∧ nd.publicaddress = host :=
  ⟨_, alookup_aset_self _ _ _, rfl⟩

theorem alookup_genericStep_ne (cfg : Config)
    (n host login key port m : String) (h : n ≠ m) :
    alookup (genericStep cfg n host login key port).instances m
      = alookup cfg.instances m :=
  alookup_aset_ne _ _ _ _ h

theorem generic_host_preserved (cfg : Config) (names : List String)
    (host login key port n : String) (nd : NodeData)
    (h : alookup cfg.instances n = some nd) (hh : nd.publicaddress = host) :
    ∃ nd', alookup
        (generic_create_nodes cfg names host login key port).instances n
          = some nd' ∧ nd'.publicaddress = host := by
  induction names generalizing cfg nd with
  | nil => exact ⟨nd, by simpa [generic_create_nodes] using h, hh⟩
  | cons m rest ih =>
    simp only [generic_create_nodes]
    by_cases hmn : m = n
    · subst hmn
      obtain ⟨nd2, h2, hp2⟩ := alookup_genericStep_self cfg m host login key port
      exact ih _ _ h2 hp2
    · exact ih _ nd
        (by rw [alookup_genericStep_ne _ _ _ _ _ _ _ hmn]; exact h) hh

theorem generic_create_nodes_host (cfg : Config) (names : List String)
    (host login key port : String) :
    ∀ n ∈ names, ∃ nd,
      alookup (generic_create_nodes cfg names host login key port).instances n
        = some nd ∧ nd.publicaddress = host := by
  induction names generalizing cfg with
  | nil => intro n hn; cases hn
  | cons m rest ih =>
    intro n hn
    simp only [generic_create_nodes]
    rcases List.mem_cons.mp hn with he | hn'
    · subst he
      obtain ⟨nd2, h2, hp2⟩ := alookup_genericStep_self cfg n host login key port
      exact generic_host_preserved _ rest host login key port n nd2 h2 hp2
    · exact ih _ n hn'

/-- The capture-result dictionary as initialised in __init__ (line 183)
for a run that produced no matching output lines. -/
def emptyResults : List (String × List (String × String)) :=
  [("worker address", []), ("rest url", []),
   ("nucypher version", []), ("nickname", [])]

/-- Claim C10: the address-keyed merge is faithful only when public
addresses are unique.  With two distinct node names holding records with
the same public address, the merge maps both names to one and the same
record - the one iterated last when building the address index -
silently replacing the data of the other node; and such duplicates are
constructible via the generic driver, whose create_nodes assigns the one
supplied host_address to every requested node name. -/
theorem duplicate_address_collapse
    (nA nB ip : String) (rA rB : NodeData) (_hn : nA ≠ nB)
    (hA : rA.publicaddress = ip) (hB : rB.publicaddress = ip)
    (sn : Bool) (sd : Option String) :
    (update_captured_instance_data emptyResults
        { instances := [(nA, rA), (nB, rB)],
          seed_network := sn, seed_node := sd }
      = some { instances := [(nA, rB), (nB, rB)],
               seed_network := sn, seed_node := sd })
  ∧ (∀ (cfg : Config) (names : List String) (host login key port : String),
      ∀ n ∈ names, ∃ nd,
        alookup (generic_create_nodes cfg names host login key
          port).instances n = some nd ∧ nd.publicaddress = host) := by
  constructor
  · simp [update_captured_instance_data, buildAddrIndex, applyResults,
      applyLabel, rebuildInstances, emptyResults, aset, alookup, hA, hB]
  · intro cfg names host login key port
    exact generic_create_nodes_host cfg names host login key port

/-- A record for nodeA carrying a version field, at the shared address. -/
def sharedA : NodeData :=
  { provider := "generic", publicaddress := "ip-shared",
    deploy_attrs := [], fields := [("nucypher version", some "v4.0")] }

/-- A record for nodeB carrying a nickname field, at the same shared
address. -/
def sharedB : NodeData :=
  { provider := "generic", publicaddress := "ip-shared",
    deploy_attrs := [], fields := [("nickname", some "bob")] }

/-- Witness for Claim C10 at concrete inputs: after the merge, nodeA and
nodeB both map to the record of nodeB (the one iterated last), and the
data previously held only by nodeA (its version field) is gone from the
instances map. -/
theorem duplicate_address_collapse_witness :
    (update_captured_instance_data emptyResults
        { instances := [("nodeA", sharedA), ("nodeB", sharedB)],
          seed_network := false, seed_node := none }
      = some { instances := [("nodeA", sharedB), ("nodeB", sharedB)],
               seed_network := false, seed_node := none })
  ∧ (∃ nd, alookup (generic_create_nodes emptyConfig ["nodeA", "nodeB"]
        "ip-shared" "ubuntu" "key.pem" "22").instances "nodeA" = some nd
      ∧ nd.publicaddress = "ip-shared") :=
  ⟨(duplicate_address_collapse "nodeA" "nodeB" "ip-shared" sharedA sharedB
      (by decide) rfl rfl false none).1,
   (duplicate_address_collapse "nodeA" "nodeB" "ip-shared" sharedA sharedB
      (by decide) rfl rfl false none).2 emptyConfig ["nodeA", "nodeB"]
      "ip-shared" "ubuntu" "key.pem" "22" "nodeA" (by decide)⟩

/-- The filesystem-visible steps of a state-file save.  Python open with
mode w truncates the file at open time; json.dump then streams the new
document into the truncated file. -/
inductive FsOp where
  | makedirs (dir : String)
  | openTrunc (path : String)
  | writeAll (path : String) (content : String)
deriving Repr, DecidableEq

/-- BaseCloudNodeConfigurator._write_config (lines 235-241) as its
sequence of filesystem operations: ensure the parent directory exists
(os.makedirs with exist_ok), open the state file with mode w
(truncating it in place), and stream the serialized config into it.
There is no temporary file and no rename. -/
def write_config_ops (path dir content : String) : List FsOp :=
  [.makedirs dir, .openTrunc path, .writeAll path content]

/-- Effect of one filesystem operation on the content of the state file
(none when the file does not exist). -/
def applyFsOp (file : Option String) : FsOp → Option String
  | .makedirs _ => file
  | .openTrunc _ => some ""
  | .writeAll _ c => some c

def runFsOps (file : Option String) (ops : List FsOp) : Option String :=
  ops.foldl applyFsOp file

/-- The set of states the file can be left in when the process crashes
at an arbitrary point during the operation sequence: the content after
any prefix of the operations. -/
def crashState (file : Option String) (ops : List FsOp) (i : Nat) :
    Option String :=
  runFsOps file (ops.take i)

/-- Counterexample to Claim C2 as stated: saving the new document over
an existing old document can be interrupted after the truncating open
and before the write, leaving an empty file that is neither the complete
old document nor the complete new one.  No write-then-rename (or
equivalent) protects the save. -/
theorem write_config_not_atomic :
    crashState (some "old-document")
        (write_config_ops "mainnet-ns.json" "worker-configs" "new-document") 2
      ≠ some "old-document"
  ∧ crashState (some "old-document")
        (write_config_ops "mainnet-ns.json" "worker-configs" "new-document") 2
      ≠ some "new-document" := by
  decide

/-- Claim C2 (amended): _write_config creates the parent directory as
its first step and, when it runs to completion, leaves the state file
holding exactly the new document; but the save is not atomic: for any
non-empty old and new contents there is a crash point (right after the
truncating open) at which the file holds neither the old nor the new
document. -/
theorem write_config_behaviour (path dir content : String)
    (old : Option String) (hold : old ≠ some "") (hnew : content ≠ "") :
    (write_config_ops path dir content).head? = some (.makedirs dir)
  ∧ runFsOps old (write_config_ops path dir content) = some content
  ∧ ∃ i ≤ (write_config_ops path dir content).length,
      crashState old (write_config_ops path dir content) i ≠ old
        ∧ crashState old (write_config_ops path dir content) i
            ≠ some content := by
  refine ⟨rfl, rfl, 2, by simp [write_config_ops], ?_, ?_⟩
  · intro h
    exact hold (by simpa [crashState, runFsOps, write_config_ops,
      applyFsOp] using h.symm)
  · intro h
    have : some "" = some content := by
      simpa [crashState, runFsOps, write_config_ops, applyFsOp] using h
    exact hnew (by simpa using this.symm)

/-- Witness for Claim C2 (amended) at concrete contents. -/
theorem write_config_behaviour_witness :
    (write_config_ops "mainnet-ns.json" "worker-configs"
        "new-document").head? = some (.makedirs "worker-configs")
  ∧ runFsOps (some "old-document")
        (write_config_ops "mainnet-ns.json" "worker-configs" "new-document")
      = some "new-document"
  ∧ ∃ i ≤ (write_config_ops "mainnet-ns.json" "worker-configs"
        "new-document").length,
      crashState (some "old-document")
          (write_config_ops "mainnet-ns.json" "worker-configs"
            "new-document") i ≠ some "old-document"
        ∧ crashState (some "old-document")
            (write_config_ops "mainnet-ns.json" "worker-configs"
              "new-document") i ≠ some "new-document" :=
  write_config_behaviour "mainnet-ns.json" "worker-configs" "new-document"
    (some "old-document") (by decide) (by decide)

/-- Python truthiness for the optional string values involved in the
override logic: None and the empty string are falsy. -/
def truthy : Option String → Bool
  | none => false
  | some s => s ≠ ""

/-- Reading a per-host field as Python dict.get does: absent and
present-as-None both read as None. -/
def hget (fields : List (String × Option String)) (k : String) :
    Option String :=
  match alookup fields k with
  | some v => v
  | none => none

/-- One iteration of the inner loop of the override-update pass in
deploy_nucypher_on_existing_nodes and update_nucypher_on_existing_nodes
(lines 320-329): for a node present in instances, a truthy
per-invocation value overwrites the host field; otherwise a falsy stored
field is filled from the fleet-wide config default; a truthy stored
field is kept. -/
def overrideStep (k : String) (input defv : Option String)
    (insts : List (String × NodeData)) (n : String) :
    List (String × NodeData) :=
  match alookup insts n with
  | none => insts
  | some nd =>
    if truthy input then
      aset insts n { nd with fields := aset nd.fields k input }
    else if truthy (hget nd.fields k) then insts
    else aset insts n { nd with fields := aset nd.fields k defv }

/-- The record produced by overrideStep for the visited node. -/
def overrideResult (k : String) (input defv : Option String)
    (nd : NodeData) : NodeData :=
  if truthy input then { nd with fields := aset nd.fields k input }
  else if truthy (hget nd.fields k) then nd
  else { nd with fields := aset nd.fields k defv }

/-- The inner node loop for one overridable key. -/
def applyOverrideKey (k : String) (input defv : Option String) :
    List (String × NodeData) → List String → List (String × NodeData)
  | insts, [] => insts
  | insts, n :: rest =>
    applyOverrideKey k input defv (overrideStep k input defv insts n) rest

/-- The gas_strategy per-invocation value after rendering: the flag
string when a truthy gas strategy was supplied, else the empty (falsy)
string (line 218). -/
def gasFlag (gs : Option String) : Option String :=
  if truthy gs then some ("--gas-strategy " ++ gs.getD "") else some ""

/-- The host_level_overrides dict built in __init__ (lines 214-219), in
its insertion order. -/
def host_level_overrides (bp ni sdn gs : Option String) :
    List (String × Option String) :=
  [("blockchain_provider", bp),
   ("nucypher_image", ni),
   ("sentry_dsn", sdn),
   ("gas_strategy", gasFlag gs)]

/-- The outer loop over host_level_overrides (lines 320-329). -/
def update_host_overrides (hlo : List (String × Option String))
    (defaults : String → Option String)
    (insts : List (String × NodeData)) (names : List String) :
    List (String × NodeData) :=
  hlo.foldl
    (fun acc kv => applyOverrideKey kv.1 kv.2 (defaults kv.1) acc names)
    insts

/-- Events of a deployment run, in program order: configuration
persists and the hand-off to the ansible executor. -/
inductive DeployEvent where
  | writeConfig (insts : List (String × NodeData))
  | runPlaybook
deriving Repr, DecidableEq

/-- deploy_nucypher_on_existing_nodes (lines 317-362) reduced to the
state it computes and the order of its externally visible steps: resolve
the per-host override values and persist them (the loop persists after
each mutation; the last persisted instances map is the resolved one),
apply the seed_node fallback, regenerate the inventory (which persists
again, line 282), and only then run the playbook executor. -/
def deploy_nucypher (hlo : List (String × Option String))
    (defaults : String → Option String) (cfg : Config)
    (names : List String) : Config × List DeployEvent :=
  let insts1 := update_host_overrides hlo defaults cfg.instances names
  let cfg1 := ensure_seed { cfg with instances := insts1 }
  (cfg1, [.writeConfig insts1, .writeConfig cfg1.instances, .runPlaybook])

/-- The precedence the spec states: explicit per-invocation value,
else persisted per-host value, else fleet default.  Stated from the
spec words, to be relates to the source-derived update loop. -/
def specResolve (input persisted defv : Option String) : Option String :=
  if truthy input then input
  else if truthy persisted then persisted
  else defv

theorem ensure_seed_instances (cfg : Config) :
    (ensure_seed cfg).instances = cfg.instances := by
  unfold ensure_seed
  split <;> rfl

theorem hget_overrideResult_self (k : String) (i d : Option String)
    (nd : NodeData) :
    hget (overrideResult k i d nd).fields k
      = specResolve i (hget nd.fields k) d := by
  unfold overrideResult specResolve
  by_cases hi : truthy i
  · rw [if_pos hi, if_pos hi]
    show hget (aset nd.fields k i) k = i
    simp [hget, alookup_aset_self]
  · rw [if_neg hi, if_neg hi]
    by_cases hp : truthy (hget nd.fields k)
    · rw [if_pos hp, if_pos hp]
    · rw [if_neg hp, if_neg hp]
      show hget (aset nd.fields k d) k = d
      simp [hget, alookup_aset_self]

theorem hget_overrideResult_ne (k k' : String) (i d : Option String)
    (nd : NodeData) (h : k ≠ k') :
    hget (overrideResult k i d nd).fields k' = hget nd.fields k' := by
  unfold overrideResult
  by_cases hi : truthy i
  · rw [if_pos hi]
    show hget (aset nd.fields k i) k' = hget nd.fields k'
    simp [hget, alookup_aset_ne _ _ _ _ h]
  · rw [if_neg hi]
    by_cases hp : truthy (hget nd.fields k)
    · rw [if_pos hp]
    · rw [if_neg hp]
      show hget (aset nd.fields k d) k' = hget nd.fields k'
      simp [hget, alookup_aset_ne _ _ _ _ h]

theorem overrideStep_self (k : String) (i d : Option String)
    (insts : List (String × NodeData)) (n : String) (nd : NodeData)
    (h : alookup insts n = some nd) :
    alookup (overrideStep k i d insts n) n
      = some (overrideResult k i d nd) := by
  unfold overrideStep overrideResult
  rw [h]
  by_cases hi : truthy i
  · simp [hi, alookup_aset_self]
  · by_cases hp : truthy (hget nd.fields k)
    · simp [hi, hp, h]
    · simp [hi, hp, alookup_aset_self]

theorem overrideStep_other (k : String) (i d : Option String)
    (insts : List (String × NodeData)) (m n : String) (h : m ≠ n) :
    alookup (overrideStep k i d insts m) n = alookup insts n := by
  unfold overrideStep
  cases hx : alookup insts m with
  | none => rfl
  | some nd =>
    by_cases hi : truthy i
    · simp [hi, alookup_aset_ne _ _ _ _ h]
    · by_cases hp : truthy (hget nd.fields k)
      · simp [hi, hp]
      · simp [hi, hp, alookup_aset_ne _ _ _ _ h]

theorem applyOverrideKey_not_mem (k : String) (i d : Option String)
    (insts : List (String × NodeData)) (names : List String) (n : String)
    (h : n ∉ names) :
    alookup (applyOverrideKey k i d insts names) n = alookup insts n := by
  induction names generalizing insts with
  | nil => rfl
  | cons m rest ih =>
    simp only [applyOverrideKey]
    have hmn : m ≠ n := fun he => h (he ▸ List.mem_cons_self m rest)
    rw [ih _ fun hc => h (List.mem_cons_of_mem _ hc)]
    exact overrideStep_other k i d insts m n hmn

theorem applyOverrideKey_node (k : String) (i d : Option String)
    (insts : List (String × NodeData)) (names : List String)
    (hnd : names.Nodup) (n : String) (nd : NodeData) (hn : n ∈ names)
    (h : alookup insts n = some nd) :
    alookup (applyOverrideKey k i d insts names) n
      = some (overrideResult k i d nd) := by
  induction names generalizing insts with
  | nil => cases hn
  | cons m rest ih =>
    simp only [applyOverrideKey]
    rcases List.mem_cons.mp hn with he | hn'
    · subst he
      have hnotin : n ∉ rest := (List.nodup_cons.mp hnd).1
      rw [applyOverrideKey_not_mem k i d _ rest n hnotin]
      exact overrideStep_self k i d insts n nd h
    · have hne : m ≠ n := by
        rintro rfl
        exact (List.nodup_cons.mp hnd).1 hn'
      refine ih _ (List.nodup_cons.mp hnd).2 hn' ?_
      rw [overrideStep_other k i d insts m n hne]
      exact h

theorem deploy_persists_before_run (hlo : List (String × Option String))
    (defaults : String → Option String) (cfg : Config)
    (names : List String) :
    ∃ i j, i < j
      ∧ (deploy_nucypher hlo defaults cfg names).2.get? i
          = some (.writeConfig
              (deploy_nucypher hlo defaults cfg names).1.instances)
      ∧ (deploy_nucypher hlo defaults cfg names).2.get? j
          = some .runPlaybook := by
  refine ⟨0, 2, by decide, ?_, rfl⟩
  simp only [deploy_nucypher, List.get?, ensure_seed_instances]

/-- Claim C8: in a deployment run, for each of the four overridable
fields and each target node independently, the final per-host value is
the per-invocation value when truthy, else the kept persisted per-host
value when truthy, else the fleet-wide default copied in; and the
resolved per-host instances map is persisted strictly before the
playbook executor runs. -/
theorem deploy_override_precedence
    (bp ni sdn gs : Option String) (defaults : String → Option String)
    (cfg : Config) (names : List String) (hnd : names.Nodup)
    (n : String) (nd : NodeData) (hn : n ∈ names)
    (h : alookup cfg.instances n = some nd) :
    (∃ nd', alookup (deploy_nucypher (host_level_overrides bp ni sdn gs)
          defaults cfg names).1.instances n = some nd'
      ∧ hget nd'.fields "blockchain_provider"
          = specResolve bp (hget nd.fields "blockchain_provider")
              (defaults "blockchain_provider")
      ∧ hget nd'.fields "nucypher_image"
          = specResolve ni (hget nd.fields "nucypher_image")
              (defaults "nucypher_image")
      ∧ hget nd'.fields "sentry_dsn"
          = specResolve sdn (hget nd.fields "sentry_dsn")
              (defaults "sentry_dsn")
      ∧ hget nd'.fields "gas_strategy"
          = specResolve (gasFlag gs) (hget nd.fields "gas_strategy")
              (defaults "gas_strategy"))
  ∧ (∃ i j, i < j
      ∧ (deploy_nucypher (host_level_overrides bp ni sdn gs)
            defaults cfg names).2.get? i
          = some (.writeConfig (deploy_nucypher (host_level_overrides
              bp ni sdn gs) defaults cfg names).1.instances)
      ∧ (deploy_nucypher (host_level_overrides bp ni sdn gs)
            defaults cfg names).2.get? j = some .runPlaybook) := by
  constructor
  · have h1 := applyOverrideKey_node "blockchain_provider" bp
      (defaults "blockchain_provider") cfg.instances names hnd n nd hn h
    have h2 := applyOverrideKey_node "nucypher_image" ni
      (defaults "nucypher_image") _ names hnd n _ hn h1
    have h3 := applyOverrideKey_node "sentry_dsn" sdn
      (defaults "sentry_dsn") _ names hnd n _ hn h2
    have h4 := applyOverrideKey_node "gas_strategy" (gasFlag gs)
      (defaults "gas_strategy") _ names hnd n _ hn h3
    refine ⟨overrideResult "gas_strategy" (gasFlag gs)
      (defaults "gas_strategy") (overrideResult "sentry_dsn" sdn
        (defaults "sentry_dsn") (overrideResult "nucypher_image" ni
          (defaults "nucypher_image") (overrideResult "blockchain_provider"
            bp (defaults "blockchain_provider") nd))), ?_, ?_, ?_, ?_, ?_⟩
    · show alookup (deploy_nucypher (host_level_overrides bp ni sdn gs)
        defaults cfg names).1.instances n = _
      simp only [deploy_nucypher, ensure_seed_instances,
        update_host_overrides, host_level_overrides, List.foldl]
      exact h4
    · rw [hget_overrideResult_ne _ _ _ _ _ (by decide),
        hget_overrideResult_ne _ _ _ _ _ (by decide),
        hget_overrideResult_ne _ _ _ _ _ (by decide),
        hget_overrideResult_self]
    · rw [hget_overrideResult_ne _ _ _ _ _ (by decide),
        hget_overrideResult_ne _ _ _ _ _ (by decide),
        hget_overrideResult_self,
        hget_overrideResult_ne _ _ _ _ _ (by decide)]
    · rw [hget_overrideResult_ne _ _ _ _ _ (by decide),
        hget_overrideResult_self,
        hget_overrideResult_ne _ _ _ _ _ (by decide),
        hget_overrideResult_ne _ _ _ _ _ (by decide)]
    · rw [hget_overrideResult_self,
        hget_overrideResult_ne _ _ _ _ _ (by decide),
        hget_overrideResult_ne _ _ _ _ _ (by decide),
        hget_overrideResult_ne _ _ _ _ _ (by decide)]
  · exact deploy_persists_before_run _ defaults cfg names

/-- A host record holding a persisted sentry DSN and nothing else. -/
def fixtureRecord : NodeData :=
  { provider := "digitalocean", publicaddress := "ip-a",
    deploy_attrs := [], fields := [("sentry_dsn", some "stored-dsn")] }

/-- A one-node fleet for exercising the override precedence. -/
def overrideFixture : Config :=
  { instances := [("nodeA", fixtureRecord)],
    seed_network := false, seed_node := none }

/-- Concrete fleet-wide defaults. -/
def fixtureDefaults : String → Option String := fun k =>
  if k = "nucypher_image" then some "nucypher/nucypher:latest"
  else some "fleet-default"

/-- Witness for Claim C8 at concrete inputs: an explicit
blockchain_provider override, a persisted sentry_dsn, and defaults for
the remaining fields. -/
theorem deploy_override_precedence_witness :
    (∃ nd', alookup (deploy_nucypher
          (host_level_overrides (some "geth.ipc") none none none)
          fixtureDefaults overrideFixture ["nodeA"]).1.instances "nodeA"
        = some nd'
      ∧ hget nd'.fields "blockchain_provider"
          = specResolve (some "geth.ipc")
              (hget fixtureRecord.fields "blockchain_provider")
              (fixtureDefaults "blockchain_provider")
      ∧ hget nd'.fields "nucypher_image"
          = specResolve none (hget fixtureRecord.fields "nucypher_image")
              (fixtureDefaults "nucypher_image")
      ∧ hget nd'.fields "sentry_dsn"
          = specResolve none (hget fixtureRecord.fields "sentry_dsn")
              (fixtureDefaults "sentry_dsn")
      ∧ hget nd'.fields "gas_strategy"
          = specResolve (gasFlag none)
              (hget fixtureRecord.fields "gas_strategy")
              (fixtureDefaults "gas_strategy"))
  ∧ (∃ i j, i < j
      ∧ (deploy_nucypher (host_level_overrides (some "geth.ipc") none
            none none) fixtureDefaults overrideFixture ["nodeA"]).2.get? i
          = some (.writeConfig (deploy_nucypher (host_level_overrides
              (some "geth.ipc") none none none) fixtureDefaults
              overrideFixture ["nodeA"]).1.instances)
      ∧ (deploy_nucypher (host_level_overrides (some "geth.ipc") none
            none none) fixtureDefaults overrideFixture ["nodeA"]).2.get? j
          = some .runPlaybook) :=
  deploy_override_precedence (some "geth.ipc") none none none
    fixtureDefaults overrideFixture ["nodeA"] (by decide) "nodeA"
    fixtureRecord (by decide) (by decide)

/-- The part of the persisted state the AWS driver manipulates during
teardown: the instances map and the shared-resource identifiers (Subnet,
RouteTable, SecurityGroup, InternetGateway, Vpc, keypair). -/
structure AwsConfig where
  instances : List (String × NodeData)
  shared : List (String × String)
deriving Repr, DecidableEq

/-- get_provider_hosts (lines 509-513): the instance entries owned by
one provider. -/
def providerHosts (insts : List (String × NodeData)) (p : String) :
    List (String × NodeData) :=
  insts.filter fun kv => kv.2.provider = p

/-- The provider calls issued during a teardown: instance termination,
a shared-resource delete attempt, and a completed shared-resource
deletion. -/
inductive DestroyEvent where
  | terminateInstance (name : String)
  | attemptDelete (kind : String)
  | deleted (kind : String)
deriving Repr, DecidableEq

/-- The shared-resource kind an event concerns, if any. -/
def eventKindOf : DestroyEvent → Option String
  | .terminateInstance _ => none
  | .attemptDelete k => some k
  | .deleted k => some k

/-- A teardown trace: each provider call paired with the state the
configurator held when it issued the call (post-state for completed
deletions). -/
abbrev DestroyTrace := List (DestroyEvent × AwsConfig)

/-- The instance-termination loop of AWSNodeConfigurator
._destroy_resources (lines 865-875): terminate each targeted instance,
remove its record, persist after each deletion.  (The guard on line 869
compares node_name against itself and never skips, so every filtered
name is processed.) -/
def delInstances : AwsConfig → List String → AwsConfig × DestroyTrace
  | cfg, [] => (cfg, [])
  | cfg, n :: rest =>
    let cfg' : AwsConfig := { cfg with instances := aerase cfg.instances n }
    let r := delInstances cfg' rest
    (r.1, (.terminateInstance n, cfg) :: r.2)

/-- The retry loop of lines 881-891 for one subresource: while the kind
is still recorded in the config and tries < 10, attempt the provider
delete (delOk kind t says whether attempt number t succeeds); on success
remove the kind from the config and persist, on failure increment tries
and back off.  Runs on fuel = 10 - tries.  Returns the final config,
the final value of tries, and the trace. -/
def retryDelete (delOk : String → Nat → Bool) (kind : String) :
    AwsConfig → Nat → Nat → AwsConfig × Nat × DestroyTrace
  | cfg, tries, 0 => (cfg, tries, [])
  | cfg, tries, fuel + 1 =>
    if (alookup cfg.shared kind).isSome then
      if delOk kind tries then
        let cfg' : AwsConfig := { cfg with shared := aerase cfg.shared kind }
        (cfg', tries, [(.attemptDelete kind, cfg), (.deleted kind, cfg')])
      else
        let r := retryDelete delOk kind cfg (tries + 1) fuel
        (r.1, r.2.1, (.attemptDelete kind, cfg) :: r.2.2)
    else (cfg, tries, [])

/-- The for-loop over Subnet, RouteTable, SecurityGroup (lines
880-894), including the dead early-return: after the retry loop the
code tests tries > 10 and returns False, but the loop bound is
tries < 10, so tries never exceeds 10 and the incomplete branch cannot
fire. -/
def destroySubresources (delOk : String → Nat → Bool) :
    AwsConfig → List String → AwsConfig × Bool × DestroyTrace
  | cfg, [] => (cfg, true, [])
  | cfg, kind :: rest =>
    let r := retryDelete delOk kind cfg 0 10
    if r.2.1 > 10 then (r.1, false, r.2.2)
    else
      let r2 := destroySubresources delOk r.1 rest
      (r2.1, r2.2.1, r.2.2 ++ r2.2.2)

/-- An unconditional guarded deletion as done for InternetGateway, Vpc
and keypair (lines 896-916): if the kind is recorded, issue the delete,
remove it from the config and persist.  These deletions have no retry
and no exception handling in the source; a provider failure there would
raise out of the function, which is outside this model. -/
def deleteIfPresent (cfg : AwsConfig) (kind : String) :
    AwsConfig × DestroyTrace :=
  match alookup cfg.shared kind with
  | some _ =>
    let cfg' : AwsConfig := { cfg with shared := aerase cfg.shared kind }
    (cfg', [(.attemptDelete kind, cfg), (.deleted kind, cfg')])
  | none => (cfg, [])

/-- Lines 896-916: gateway, then VPC, then keypair. -/
def destroySharedTail (cfg : AwsConfig) : AwsConfig × DestroyTrace :=
  let r1 := deleteIfPresent cfg "InternetGateway"
  let r2 := deleteIfPresent r1.1 "Vpc"
  let r3 := deleteIfPresent r2.1 "keypair"
  (r3.1, r1.2 ++ r2.2 ++ r3.2)

/-- AWSNodeConfigurator._destroy_resources (lines 858-918): terminate
the requested instances that exist, then - only if no aws-provider
instance remains - delete Subnet, RouteTable and SecurityGroup with
retries, then InternetGateway, Vpc and keypair.  Returns the final
config, the returned boolean, and the trace of provider calls. -/
def aws_destroy_resources (delOk : String → Nat → Bool) (cfg : AwsConfig)
    (node_names : List String) : AwsConfig × Bool × DestroyTrace :=
  let targets := (cfg.instances.filter fun kv =>
    node_names.contains kv.1).map Prod.fst
  let ri := delInstances cfg targets
  if (providerHosts ri.1.instances "aws").isEmpty then
    let rs := destroySubresources delOk ri.1
      ["Subnet", "RouteTable", "SecurityGroup"]
    if rs.2.1 then
      let rt := destroySharedTail rs.1
      (rt.1, true, ri.2 ++ rs.2.2 ++ rt.2)
    else (rs.1, false, ri.2 ++ rs.2.2)
  else (ri.1, true, ri.2)

/-- BaseCloudNodeConfigurator.destroy_resources (lines 518-523): filter
the requested names to those owned by this driver, then run the
driver teardown. -/
def destroy_resources (delOk : String → Nat → Bool) (cfg : AwsConfig)
    (node_names : List String) : AwsConfig × Bool × DestroyTrace :=
  aws_destroy_resources delOk cfg
    (node_names.filter fun n =>
      (providerHosts cfg.instances "aws").any fun kv => kv.1 = n)

theorem delInstances_shared (cfg : AwsConfig) (ns : List String) :
    (delInstances cfg ns).1.shared = cfg.shared := by
  induction ns generalizing cfg with
  | nil => rfl
  | cons n rest ih => simpa [delInstances] using ih _

theorem delInstances_events (cfg : AwsConfig) (ns : List String) :
    ∀ p ∈ (delInstances cfg ns).2, ∃ n, p.1 = .terminateInstance n := by
  induction ns generalizing cfg with
  | nil => intro p hp; cases hp
  | cons n rest ih =>
    intro p hp
    simp only [delInstances] at hp
    rcases List.mem_cons.mp hp with he | hp'
    · exact ⟨n, by rw [he]⟩
    · exact ih _ p hp'

theorem retryDelete_instances (delOk : String → Nat → Bool) (kind : String)
    (cfg : AwsConfig) (tries fuel : Nat) :
    (retryDelete delOk kind cfg tries fuel).1.instances = cfg.instances := by
  induction fuel generalizing cfg tries with
  | zero => rfl
  | succ f ih =>
    simp only [retryDelete]
    by_cases hs : (alookup cfg.shared kind).isSome
    · rw [if_pos hs]
      by_cases hd : delOk kind tries
      · rw [if_pos hd]
      · rw [if_neg hd]
        exact ih cfg (tries + 1)
    · rw [if_neg hs]

theorem retryDelete_trace_instances (delOk : String → Nat → Bool)
    (kind : String) (cfg : AwsConfig) (tries fuel : Nat) :
    ∀ p ∈ (retryDelete delOk kind cfg tries fuel).2.2,
      p.2.instances = cfg.instances := by
  induction fuel generalizing cfg tries with
  | zero => intro p hp; cases hp
  | succ f ih =>
    intro p hp
    simp only [retryDelete] at hp
    by_cases hs : (alookup cfg.shared kind).isSome
    · rw [if_pos hs] at hp
      by_cases hd : delOk kind tries
      · rw [if_pos hd] at hp
        rcases List.mem_cons.mp hp with he | hp'
        · rw [he]
        · rcases List.mem_cons.mp hp' with he' | hp''
          · rw [he']
          · cases hp''
      · rw [if_neg hd] at hp
        rcases List.mem_cons.mp hp with he | hp'
        · rw [he]
        · exact ih cfg (tries + 1) p hp'
    · rw [if_neg hs] at hp
      cases hp

theorem retryDelete_tries_le (delOk : String → Nat → Bool) (kind : String)
    (cfg : AwsConfig) (tries fuel : Nat) :
    (retryDelete delOk kind cfg tries fuel).2.1 ≤ tries + fuel := by
  induction fuel generalizing cfg tries with
  | zero => exact Nat.le_refl _
  | succ f ih =>
    simp only [retryDelete]
    by_cases hs : (alookup cfg.shared kind).isSome
    · rw [if_pos hs]
      by_cases hd : delOk kind tries
      · rw [if_pos hd]
        exact Nat.le_add_right _ _
      · rw [if_neg hd]
        calc (retryDelete delOk kind cfg (tries + 1) f).2.1
            ≤ tries + 1 + f := ih cfg (tries + 1)
          _ = tries + (f + 1) := by omega
    · rw [if_neg hs]
      exact Nat.le_add_right _ _

theorem destroySubresources_instances (delOk : String → Nat → Bool)
    (cfg : AwsConfig) (kinds : List String) :
    (destroySubresources delOk cfg kinds).1.instances = cfg.instances := by
  induction kinds generalizing cfg with
  | nil => rfl
  | cons kind rest ih =>
    simp only [destroySubresources]
    by_cases hgt : (retryDelete delOk kind cfg 0 10).2.1 > 10
    · rw [if_pos hgt]
      exact retryDelete_instances delOk kind cfg 0 10
    · rw [if_neg hgt]
      rw [ih _]
      exact retryDelete_instances delOk kind cfg 0 10

theorem destroySubresources_trace_instances (delOk : String → Nat → Bool)
    (cfg : AwsConfig) (kinds : List String) :
    ∀ p ∈ (destroySubresources delOk cfg kinds).2.2,
      p.2.instances = cfg.instances := by
  induction kinds generalizing cfg with
  | nil => intro p hp; cases hp
  | cons kind rest ih =>
    intro p hp
    simp only [destroySubresources] at hp
    by_cases hgt : (retryDelete delOk kind cfg 0 10).2.1 > 10
    · rw [if_pos hgt] at hp
      exact retryDelete_trace_instances delOk kind cfg 0 10 p hp
    · rw [if_neg hgt] at hp
      rcases List.mem_append.mp hp with hp1 | hp2
      · exact retryDelete_trace_instances delOk kind cfg 0 10 p hp1
      · rw [ih _ p hp2]
        exact retryDelete_instances delOk kind cfg 0 10

theorem deleteIfPresent_instances (cfg : AwsConfig) (kind : String) :
    (deleteIfPresent cfg kind).1.instances = cfg.instances := by
  unfold deleteIfPresent
  cases alookup cfg.shared kind <;> rfl

theorem deleteIfPresent_trace_instances (cfg : AwsConfig) (kind : String) :
    ∀ p ∈ (deleteIfPresent cfg kind).2, p.2.instances = cfg.instances := by
  unfold deleteIfPresent
  cases alookup cfg.shared kind with
  | none => intro p hp; cases hp
  | some v =>
    intro p hp
    rcases List.mem_cons.mp hp with he | hp'
    · rw [he]
    · rcases List.mem_cons.mp hp' with he' | hp''
      · rw [he']
      · cases hp''

theorem destroySharedTail_instances (cfg : AwsConfig) :
    (destroySharedTail cfg).1.instances = cfg.instances := by
  unfold destroySharedTail
  rw [deleteIfPresent_instances, deleteIfPresent_instances,
    deleteIfPresent_instances]

theorem destroySharedTail_trace_instances (cfg : AwsConfig) :
    ∀ p ∈ (destroySharedTail cfg).2, p.2.instances = cfg.instances := by
  unfold destroySharedTail
  intro p hp
  rcases List.mem_append.mp hp with hp1 | hp2
  · rcases List.mem_append.mp hp1 with hpa | hpb
    · exact deleteIfPresent_trace_instances cfg _ p hpa
    · rw [deleteIfPresent_trace_instances _ _ p hpb,
        deleteIfPresent_instances]
  · rw [deleteIfPresent_trace_instances _ _ p hp2,
      deleteIfPresent_instances, deleteIfPresent_instances]

/-- Claim C5: in any teardown run, for any starting state and any
requested names, every shared-resource provider call (delete attempt or
completed deletion of network, subnet, route table, security group,
gateway or keypair) is issued at a moment when no instance record owned
by the aws driver remains in the instances map. -/
theorem shared_deletes_only_without_hosts (delOk : String → Nat → Bool)
    (cfg : AwsConfig) (node_names : List String) :
    ∀ p ∈ (aws_destroy_resources delOk cfg node_names).2.2,
      (eventKindOf p.1).isSome →
        providerHosts p.2.instances "aws" = [] := by
  intro p hp hk
  unfold aws_destroy_resources at hp
  by_cases hE : (providerHosts (delInstances cfg
      ((cfg.instances.filter fun kv => node_names.contains kv.1).map
        Prod.fst)).1.instances "aws").isEmpty
  · rw [if_pos hE] at hp
    have hEmpty : providerHosts (delInstances cfg
        ((cfg.instances.filter fun kv => node_names.contains kv.1).map
          Prod.fst)).1.instances "aws" = [] := by
      rwa [List.isEmpty_iff] at hE
    by_cases hok : (destroySubresources delOk (delInstances cfg
        ((cfg.instances.filter fun kv => node_names.contains kv.1).map
          Prod.fst)).1 ["Subnet", "RouteTable", "SecurityGroup"]).2.1
    · rw [if_pos hok] at hp
      rcases List.mem_append.mp hp with hp1 | hp2
      · rcases List.mem_append.mp hp1 with hpi | hps
        · obtain ⟨n, hn⟩ := delInstances_events cfg _ p hpi
          rw [hn] at hk
          cases hk
        · rw [destroySubresources_trace_instances _ _ _ p hps]
          exact hEmpty
      · rw [destroySharedTail_trace_instances _ p hp2,
          destroySubresources_instances]
        exact hEmpty
    · rw [if_neg hok] at hp
      rcases List.mem_append.mp hp with hpi | hps
      · obtain ⟨n, hn⟩ := delInstances_events cfg _ p hpi
        rw [hn] at hk
        cases hk
      · rw [destroySubresources_trace_instances _ _ _ p hps]
        exact hEmpty
  · rw [if_neg hE] at hp
    obtain ⟨n, hn⟩ := delInstances_events cfg _ p hp
    rw [hn] at hk
    cases hk

/-- A two-node aws fleet with the full shared-resource chain. -/
def awsFixture : AwsConfig :=
  { instances :=
      [("w1", { provider := "aws", publicaddress := "h1",
                deploy_attrs := [], fields := [] }),
       ("w2", { provider := "aws", publicaddress := "h2",
                deploy_attrs := [], fields := [] })],
    shared := [("Subnet", "subnet-1"), ("RouteTable", "rtb-1"),
               ("SecurityGroup", "sg-1"), ("InternetGateway", "igw-1"),
               ("Vpc", "vpc-1"), ("keypair", "kp-1")] }

/-- A provider that deletes everything at the first attempt. -/
def okDelete : String → Nat → Bool := fun _ _ => true

/-- Witness for Claim C5 at a concrete trace entry: the full teardown
of the two-node fixture emits the Subnet delete attempt at a state with
both instance records gone, and the theorem yields that state's
emptiness of aws hosts. -/
theorem shared_deletes_only_without_hosts_witness :
    providerHosts (AwsConfig.mk []
      [("Subnet", "subnet-1"), ("RouteTable", "rtb-1"),
       ("SecurityGroup", "sg-1"), ("InternetGateway", "igw-1"),
       ("Vpc", "vpc-1"), ("keypair", "kp-1")]).instances "aws" = [] :=
  shared_deletes_only_without_hosts okDelete awsFixture ["w1", "w2"]
    (DestroyEvent.attemptDelete "Subnet",
     AwsConfig.mk []
      [("Subnet", "subnet-1"), ("RouteTable", "rtb-1"),
       ("SecurityGroup", "sg-1"), ("InternetGateway", "igw-1"),
       ("Vpc", "vpc-1"), ("keypair", "kp-1")])
    (by decide) (by decide)

/-- A provider where the Subnet delete always fails (AWS still releasing
a dependency) and every other delete succeeds. -/
def subnetStuck : String → Nat → Bool := fun kind _ => kind ≠ "Subnet"

/-- A state with no instances left and the full shared chain recorded. -/
def stuckFixture : AwsConfig :=
  { instances := [],
    shared := [("Subnet", "subnet-1"), ("RouteTable", "rtb-1"),
               ("SecurityGroup", "sg-1"), ("InternetGateway", "igw-1"),
               ("Vpc", "vpc-1"), ("keypair", "kp-1")] }

/-- Claim C3, evaluated at the failing input: when the Subnet delete
fails on all of its 10 bounded retries, the loop exits with tries = 10,
so the guard tries > 10 that should report the incomplete teardown never
fires: the run issues exactly 10 Subnet delete attempts, leaves the
Subnet recorded in the persisted config, and still returns True
(complete) instead of the claimed False. -/
theorem exhausted_retries_return_true :
    ((aws_destroy_resources subnetStuck stuckFixture []).2.2.filter
        fun p => p.1 == DestroyEvent.attemptDelete "Subnet").length = 10
  ∧ (aws_destroy_resources subnetStuck stuckFixture []).2.1 = true
  ∧ alookup (aws_destroy_resources subnetStuck stuckFixture []).1.shared
      "Subnet" = some "subnet-1" := by
  decide

/-- Counterexample to the dependent-safety half of Claim C6: with the
Subnet delete exhausting its retries, the teardown continues and the Vpc
deletion is attempted while the Subnet - a resource depending on the
Vpc - is still recorded as existing. -/
theorem vpc_attempted_while_subnet_remains :
    ∃ p ∈ (aws_destroy_resources subnetStuck stuckFixture []).2.2,
      p.1 = DestroyEvent.attemptDelete "Vpc"
        ∧ (alookup p.2.shared "Subnet").isSome = true := by
  decide

theorem alookup_aerase_none {α : Type} (l : List (String × α))
    (k k₂ : String) (h : alookup l k = none) :
    alookup (aerase l k₂) k = none := by
  induction l with
  | nil => simp [aerase]
  | cons hd tl ih =>
    obtain ⟨k₀, v₀⟩ := hd
    simp only [alookup_cons] at h
    by_cases h₀ : k₀ = k
    · rw [if_pos h₀] at h
      cases h
    · rw [if_neg h₀] at h
      by_cases h₂ : k₀ = k₂
      · simpa [aerase, h₂] using h
      · simp only [aerase, if_neg h₂, alookup_cons, if_neg h₀]
        exact ih h

theorem aerase_keys_sublist {α : Type} (l : List (String × α))
    (k : String) :
    ((aerase l k).map Prod.fst).Sublist (l.map Prod.fst) := by
  induction l with
  | nil => simp [aerase]
  | cons hd tl ih =>
    obtain ⟨k₀, v₀⟩ := hd
    by_cases h₀ : k₀ = k
    · simp only [aerase, if_pos h₀, List.map_cons]
      exact List.sublist_cons_of_sublist _ (List.Sublist.refl _)
    · simp only [aerase, if_neg h₀, List.map_cons]
      exact List.Sublist.cons₂ _ ih

theorem aerase_keys_nodup {α : Type} (l : List (String × α)) (k : String)
    (h : (l.map Prod.fst).Nodup) :
    ((aerase l k).map Prod.fst).Nodup :=
  List.Nodup.sublist (aerase_keys_sublist l k) h

theorem retryDelete_shared_none (delOk : String → Nat → Bool)
    (kind : String) (cfg : AwsConfig) (tries fuel : Nat) (k : String)
    (h : alookup cfg.shared k = none) :
    alookup (retryDelete delOk kind cfg tries fuel).1.shared k = none := by
  induction fuel generalizing cfg tries with
  | zero => exact h
  | succ f ih =>
    simp only [retryDelete]
    by_cases hs : (alookup cfg.shared kind).isSome
    · rw [if_pos hs]
      by_cases hd : delOk kind tries
      · rw [if_pos hd]
        exact alookup_aerase_none _ _ _ h
      · rw [if_neg hd]
        exact ih cfg (tries + 1) h
    · rw [if_neg hs]
      exact h

theorem retryDelete_keys_nodup (delOk : String → Nat → Bool)
    (kind : String) (cfg : AwsConfig) (tries fuel : Nat)
    (h : (cfg.shared.map Prod.fst).Nodup) :
    (((retryDelete delOk kind cfg tries fuel).1.shared.map
      Prod.fst)).Nodup := by
  induction fuel generalizing cfg tries with
  | zero => exact h
  | succ f ih =>
    simp only [retryDelete]
    by_cases hs : (alookup cfg.shared kind).isSome
    · rw [if_pos hs]
      by_cases hd : delOk kind tries
      · rw [if_pos hd]
        exact aerase_keys_nodup _ _ h
      · rw [if_neg hd]
        exact ih cfg (tries + 1) h
    · rw [if_neg hs]
      exact h

theorem retryDelete_removes (delOk : String → Nat → Bool) (kind : String)
    (cfg : AwsConfig) (tries fuel : Nat)
    (hnd : (cfg.shared.map Prod.fst).Nodup)
    (hsucc : ∃ t, tries ≤ t ∧ t < tries + fuel ∧ delOk kind t = true) :
    alookup (retryDelete delOk kind cfg tries fuel).1.shared kind
      = none := by
  induction fuel generalizing cfg tries with
  | zero =>
    obtain ⟨t, h1, h2, _⟩ := hsucc
    omega
  | succ f ih =>
    simp only [retryDelete]
    by_cases hs : (alookup cfg.shared kind).isSome
    · rw [if_pos hs]
      by_cases hd : delOk kind tries
      · rw [if_pos hd]
        exact alookup_aerase_self _ _ hnd
      · rw [if_neg hd]
        apply ih cfg (tries + 1) hnd
        obtain ⟨t, h1, h2, h3⟩ := hsucc
        have hne : t ≠ tries := fun he => hd (he ▸ h3)
        exact ⟨t, by omega, by omega, h3⟩
    · rw [if_neg hs]
      exact Option.not_isSome_iff_eq_none.mp hs

theorem destroySubresources_shared_none (delOk : String → Nat → Bool)
    (cfg : AwsConfig) (kinds : List String) (k : String)
    (h : alookup cfg.shared k = none) :
    alookup (destroySubresources delOk cfg kinds).1.shared k = none := by
  induction kinds generalizing cfg with
  | nil => exact h
  | cons kind rest ih =>
    simp only [destroySubresources]
    by_cases hgt : (retryDelete delOk kind cfg 0 10).2.1 > 10
    · rw [if_pos hgt]
      exact retryDelete_shared_none delOk kind cfg 0 10 k h
    · rw [if_neg hgt]
      exact ih _ (retryDelete_shared_none delOk kind cfg 0 10 k h)

theorem destroySubresources_keys_nodup (delOk : String → Nat → Bool)
    (cfg : AwsConfig) (kinds : List String)
    (h : (cfg.shared.map Prod.fst).Nodup) :
    ((destroySubresources delOk cfg kinds).1.shared.map Prod.fst).Nodup := by
  induction kinds generalizing cfg with
  | nil => exact h
  | cons kind rest ih =>
    simp only [destroySubresources]
    by_cases hgt : (retryDelete delOk kind cfg 0 10).2.1 > 10
    · rw [if_pos hgt]
      exact retryDelete_keys_nodup delOk kind cfg 0 10 h
    · rw [if_neg hgt]
      exact ih _ (retryDelete_keys_nodup delOk kind cfg 0 10 h)

theorem destroySubresources_ok (delOk : String → Nat → Bool)
    (cfg : AwsConfig) (kinds : List String) :
    (destroySubresources delOk cfg kinds).2.1 = true := by
  induction kinds generalizing cfg with
  | nil => rfl
  | cons kind rest ih =>
    simp only [destroySubresources]
    have hle := retryDelete_tries_le delOk kind cfg 0 10
    rw [if_neg (by omega)]
    exact ih _

theorem destroySubresources_removes (delOk : String → Nat → Bool)
    (cfg : AwsConfig) (kinds : List String)
    (hnd : (cfg.shared.map Prod.fst).Nodup)
    (hsucc : ∀ kind ∈ kinds, ∃ t, t < 10 ∧ delOk kind t = true) :
    ∀ kind ∈ kinds,
      alookup (destroySubresources delOk cfg kinds).1.shared kind
        = none := by
  induction kinds generalizing cfg with
  | nil => intro kind hk; cases hk
  | cons kind0 rest ih =>
    intro kind hk
    simp only [destroySubresources]
    have hle := retryDelete_tries_le delOk kind0 cfg 0 10
    rw [if_neg (by omega)]
    rcases List.mem_cons.mp hk with he | hk'
    · subst he
      apply destroySubresources_shared_none
      apply retryDelete_removes delOk kind cfg 0 10 hnd
      obtain ⟨t, h1, h2⟩ := hsucc kind (List.mem_cons_self _ _)
      exact ⟨t, by omega, by omega, h2⟩
    · exact ih _ (retryDelete_keys_nodup delOk kind0 cfg 0 10 hnd)
        (fun kk hkk => hsucc kk (List.mem_cons_of_mem _ hkk)) kind hk'

theorem deleteIfPresent_shared_none (cfg : AwsConfig) (kind k : String)
    (h : alookup cfg.shared k = none) :
    alookup (deleteIfPresent cfg kind).1.shared k = none := by
  unfold deleteIfPresent
  cases alookup cfg.shared kind with
  | none => exact h
  | some v => exact alookup_aerase_none _ _ _ h

theorem deleteIfPresent_keys_nodup (cfg : AwsConfig) (kind : String)
    (h : (cfg.shared.map Prod.fst).Nodup) :
    ((deleteIfPresent cfg kind).1.shared.map Prod.fst).Nodup := by
  unfold deleteIfPresent
  cases alookup cfg.shared kind with
  | none => exact h
  | some v => exact aerase_keys_nodup _ _ h

theorem deleteIfPresent_self_none (cfg : AwsConfig) (kind : String)
    (hnd : (cfg.shared.map Prod.fst).Nodup) :
    alookup (deleteIfPresent cfg kind).1.shared kind = none := by
  unfold deleteIfPresent
  cases hx : alookup cfg.shared kind with
  | none => exact hx
  | some v => exact alookup_aerase_self _ _ hnd

theorem deleteIfPresent_trace_shared (cfg : AwsConfig) (kind k : String)
    (h : alookup cfg.shared k = none) :
    ∀ p ∈ (deleteIfPresent cfg kind).2, alookup p.2.shared k = none := by
  unfold deleteIfPresent
  cases alookup cfg.shared kind with
  | none => intro p hp; cases hp
  | some v =>
    intro p hp
    rcases List.mem_cons.mp hp with he | hp'
    · rw [he]
      exact h
    · rcases List.mem_cons.mp hp' with he' | hp''
      · rw [he']
        exact alookup_aerase_none _ _ _ h
      · cases hp''

theorem deleteIfPresent_events (cfg : AwsConfig) (kind : String) :
    ∀ p ∈ (deleteIfPresent cfg kind).2, eventKindOf p.1 = some kind := by
  unfold deleteIfPresent
  cases alookup cfg.shared kind with
  | none => intro p hp; cases hp
  | some v =>
    intro p hp
    rcases List.mem_cons.mp hp with he | hp'
    · rw [he]
      rfl
    · rcases List.mem_cons.mp hp' with he' | hp''
      · rw [he']
        rfl
      · cases hp''

theorem retryDelete_events (delOk : String → Nat → Bool) (kind : String)
    (cfg : AwsConfig) (tries fuel : Nat) :
    ∀ p ∈ (retryDelete delOk kind cfg tries fuel).2.2,
      eventKindOf p.1 = some kind := by
  induction fuel generalizing cfg tries with
  | zero => intro p hp; cases hp
  | succ f ih =>
    intro p hp
    simp only [retryDelete] at hp
    by_cases hs : (alookup cfg.shared kind).isSome
    · rw [if_pos hs] at hp
      by_cases hd : delOk kind tries
      · rw [if_pos hd] at hp
        rcases List.mem_cons.mp hp with he | hp'
        · rw [he]; rfl
        · rcases List.mem_cons.mp hp' with he' | hp''
          · rw [he']; rfl
          · cases hp''
      · rw [if_neg hd] at hp
        rcases List.mem_cons.mp hp with he | hp'
        · rw [he]; rfl
        · exact ih cfg (tries + 1) p hp'
    · rw [if_neg hs] at hp
      cases hp

theorem destroySubresources_events (delOk : String → Nat → Bool)
    (cfg : AwsConfig) (kinds : List String) :
    ∀ p ∈ (destroySubresources delOk cfg kinds).2.2,
      ∃ k ∈ kinds, eventKindOf p.1 = some k := by
  induction kinds generalizing cfg with
  | nil => intro p hp; cases hp
  | cons kind rest ih =>
    intro p hp
    simp only [destroySubresources] at hp
    by_cases hgt : (retryDelete delOk kind cfg 0 10).2.1 > 10
    · rw [if_pos hgt] at hp
      exact ⟨kind, List.mem_cons_self _ _,
        retryDelete_events delOk kind cfg 0 10 p hp⟩
    · rw [if_neg hgt] at hp
      rcases List.mem_append.mp hp with hp1 | hp2
      · exact ⟨kind, List.mem_cons_self _ _,
          retryDelete_events delOk kind cfg 0 10 p hp1⟩
      · obtain ⟨k, hk, he⟩ := ih _ p hp2
        exact ⟨k, List.mem_cons_of_mem _ hk, he⟩

theorem destroySharedTail_trace_eq (cfg : AwsConfig) :
    (destroySharedTail cfg).2
      = (deleteIfPresent cfg "InternetGateway").2
        ++ (deleteIfPresent (deleteIfPresent cfg "InternetGateway").1
            "Vpc").2
        ++ (deleteIfPresent (deleteIfPresent (deleteIfPresent cfg
            "InternetGateway").1 "Vpc").1 "keypair").2 := rfl

theorem tail_events_shared (cfg : AwsConfig)
    (hnd : (cfg.shared.map Prod.fst).Nodup)
    (hS : alookup cfg.shared "Subnet" = none)
    (hR : alookup cfg.shared "RouteTable" = none)
    (hG : alookup cfg.shared "SecurityGroup" = none) :
    ∀ p ∈ (destroySharedTail cfg).2,
      (alookup p.2.shared "Subnet" = none
        ∧ alookup p.2.shared "RouteTable" = none
        ∧ alookup p.2.shared "SecurityGroup" = none)
      ∧ ((eventKindOf p.1 = some "Vpc" ∨ eventKindOf p.1 = some "keypair")
          → alookup p.2.shared "InternetGateway" = none)
      ∧ (eventKindOf p.1 = some "keypair" →
          alookup p.2.shared "Vpc" = none) := by
  intro p hp
  rw [destroySharedTail_trace_eq] at hp
  have hnd1 : ((deleteIfPresent cfg "InternetGateway").1.shared.map
      Prod.fst).Nodup := deleteIfPresent_keys_nodup cfg _ hnd
  rcases List.mem_append.mp hp with hp12 | hp3
  · rcases List.mem_append.mp hp12 with hp1 | hp2
    · -- InternetGateway segment
      have hev := deleteIfPresent_events cfg "InternetGateway" p hp1
      refine ⟨⟨deleteIfPresent_trace_shared cfg _ _ hS p hp1,
        deleteIfPresent_trace_shared cfg _ _ hR p hp1,
        deleteIfPresent_trace_shared cfg _ _ hG p hp1⟩, ?_, ?_⟩
      · intro hpre
        rcases hpre with hpre | hpre <;>
          exact absurd (hev.symm.trans hpre) (by decide)
      · intro hpre
        exact absurd (hev.symm.trans hpre) (by decide)
    · -- Vpc segment
      have hev := deleteIfPresent_events _ "Vpc" p hp2
      refine ⟨⟨deleteIfPresent_trace_shared _ _ _
          (deleteIfPresent_shared_none cfg _ _ hS) p hp2,
        deleteIfPresent_trace_shared _ _ _
          (deleteIfPresent_shared_none cfg _ _ hR) p hp2,
        deleteIfPresent_trace_shared _ _ _
          (deleteIfPresent_shared_none cfg _ _ hG) p hp2⟩, ?_, ?_⟩
      · intro _
        exact deleteIfPresent_trace_shared _ _ _
          (deleteIfPresent_self_none cfg "InternetGateway" hnd) p hp2
      · intro hpre
        exact absurd (hev.symm.trans hpre) (by decide)
  · -- keypair segment
    refine ⟨⟨deleteIfPresent_trace_shared _ _ _
        (deleteIfPresent_shared_none _ _ _
          (deleteIfPresent_shared_none cfg _ _ hS)) p hp3,
      deleteIfPresent_trace_shared _ _ _
        (deleteIfPresent_shared_none _ _ _
          (deleteIfPresent_shared_none cfg _ _ hR)) p hp3,
      deleteIfPresent_trace_shared _ _ _
        (deleteIfPresent_shared_none _ _ _
          (deleteIfPresent_shared_none cfg _ _ hG)) p hp3⟩, ?_, ?_⟩
    · intro _
      exact deleteIfPresent_trace_shared _ _ _
        (deleteIfPresent_shared_none _ _ _
          (deleteIfPresent_self_none cfg "InternetGateway" hnd)) p hp3
    · intro _
      exact deleteIfPresent_trace_shared _ _ _
        (deleteIfPresent_self_none _ "Vpc" hnd1) p hp3

theorem aws_destroy_trace_eq (delOk : String → Nat → Bool)
    (cfg : AwsConfig) (node_names : List String)
    (hE : (providerHosts (delInstances cfg ((cfg.instances.filter fun kv =>
        node_names.contains kv.1).map Prod.fst)).1.instances
        "aws").isEmpty = true) :
    (aws_destroy_resources delOk cfg node_names).2.2
      = (delInstances cfg ((cfg.instances.filter fun kv =>
          node_names.contains kv.1).map Prod.fst)).2
        ++ (destroySubresources delOk (delInstances cfg
            ((cfg.instances.filter fun kv => node_names.contains kv.1).map
            Prod.fst)).1 ["Subnet", "RouteTable", "SecurityGroup"]).2.2
        ++ (destroySharedTail (destroySubresources delOk (delInstances cfg
            ((cfg.instances.filter fun kv => node_names.contains kv.1).map
            Prod.fst)).1 ["Subnet", "RouteTable", "SecurityGroup"]).1).2 := by
  simp only [aws_destroy_resources]
  rw [if_pos hE, if_pos (destroySubresources_ok delOk _ _)]

theorem aws_destroy_trace_eq_nonempty (delOk : String → Nat → Bool)
    (cfg : AwsConfig) (node_names : List String)
    (hE : ¬ (providerHosts (delInstances cfg ((cfg.instances.filter
        fun kv => node_names.contains kv.1).map Prod.fst)).1.instances
        "aws").isEmpty = true) :
    (aws_destroy_resources delOk cfg node_names).2.2
      = (delInstances cfg ((cfg.instances.filter fun kv =>
          node_names.contains kv.1).map Prod.fst)).2 := by
  simp only [aws_destroy_resources]
  rw [if_neg hE]

/-- Claim C6 (amended): the shared-resource teardown always issues its
deletions in phase order - instance terminations, then the
subnet/route-table/security-group phase, then the internet gateway,
then the VPC, then the keypair - and, provided every retried step
succeeds within its 10 bounded attempts, a deletion is never attempted
while a recorded resource that depends on the target still exists: at
every gateway, VPC and keypair call the three first-phase resources are
already removed, at every VPC and keypair call the gateway is removed,
and at every keypair call the VPC is removed.  (When a retried step
exhausts its attempts, the teardown continues anyway - see the
counterexample - which is why the success hypothesis is needed.) -/
theorem destroy_reverse_dependency_order (delOk : String → Nat → Bool)
    (cfg : AwsConfig) (node_names : List String)
    (hnd : (cfg.shared.map Prod.fst).Nodup)
    (hsucc : ∀ kind ∈ (["Subnet", "RouteTable", "SecurityGroup"] :
        List String), ∃ t, t < 10 ∧ delOk kind t = true) :
    (∃ t0 t1 t2 t3 t4,
      (aws_destroy_resources delOk cfg node_names).2.2
          = t0 ++ t1 ++ t2 ++ t3 ++ t4
      ∧ (∀ p ∈ t0, eventKindOf p.1 = none)
      ∧ (∀ p ∈ t1, eventKindOf p.1 = some "Subnet"
          ∨ eventKindOf p.1 = some "RouteTable"
          ∨ eventKindOf p.1 = some "SecurityGroup")
      ∧ (∀ p ∈ t2, eventKindOf p.1 = some "InternetGateway")
      ∧ (∀ p ∈ t3, eventKindOf p.1 = some "Vpc")
      ∧ (∀ p ∈ t4, eventKindOf p.1 = some "keypair"))
  ∧ (∀ p ∈ (aws_destroy_resources delOk cfg node_names).2.2,
      (eventKindOf p.1 = some "InternetGateway"
        ∨ eventKindOf p.1 = some "Vpc"
        ∨ eventKindOf p.1 = some "keypair") →
      alookup p.2.shared "Subnet" = none
        ∧ alookup p.2.shared "RouteTable" = none
        ∧ alookup p.2.shared "SecurityGroup" = none)
  ∧ (∀ p ∈ (aws_destroy_resources delOk cfg node_names).2.2,
      (eventKindOf p.1 = some "Vpc" ∨ eventKindOf p.1 = some "keypair") →
      alookup p.2.shared "InternetGateway" = none)
  ∧ (∀ p ∈ (aws_destroy_resources delOk cfg node_names).2.2,
      eventKindOf p.1 = some "keypair" →
      alookup p.2.shared "Vpc" = none) := by
  by_cases hE : (providerHosts (delInstances cfg ((cfg.instances.filter
      fun kv => node_names.contains kv.1).map Prod.fst)).1.instances
      "aws").isEmpty = true
  · have htr := aws_destroy_trace_eq delOk cfg node_names hE
    have hnd1 : ((delInstances cfg ((cfg.instances.filter fun kv =>
        node_names.contains kv.1).map Prod.fst)).1.shared.map
        Prod.fst).Nodup := by
      rw [delInstances_shared]
      exact hnd
    have hrem := destroySubresources_removes delOk _
      ["Subnet", "RouteTable", "SecurityGroup"] hnd1 hsucc
    have hndrs := destroySubresources_keys_nodup delOk _
      ["Subnet", "RouteTable", "SecurityGroup"] hnd1
    have htail := tail_events_shared _ hndrs
      (hrem "Subnet" (by decide)) (hrem "RouteTable" (by decide))
      (hrem "SecurityGroup" (by decide))
    have hkindB : ∀ p ∈ (destroySubresources delOk (delInstances cfg
        ((cfg.instances.filter fun kv => node_names.contains kv.1).map
        Prod.fst)).1 ["Subnet", "RouteTable", "SecurityGroup"]).2.2,
        ∀ s, eventKindOf p.1 = some s →
          s ∈ (["Subnet", "RouteTable", "SecurityGroup"] : List String) := by
      intro p hp s hs
      obtain ⟨k, hk, he⟩ := destroySubresources_events delOk _ _ p hp
      rw [he] at hs
      obtain rfl := Option.some.inj hs
      exact hk
    refine ⟨?_, ?_, ?_, ?_⟩
    · refine ⟨(delInstances cfg ((cfg.instances.filter fun kv =>
          node_names.contains kv.1).map Prod.fst)).2,
        (destroySubresources delOk (delInstances cfg ((cfg.instances.filter
          fun kv => node_names.contains kv.1).map Prod.fst)).1
          ["Subnet", "RouteTable", "SecurityGroup"]).2.2,
        (deleteIfPresent (destroySubresources delOk (delInstances cfg
          ((cfg.instances.filter fun kv => node_names.contains kv.1).map
          Prod.fst)).1 ["Subnet", "RouteTable", "SecurityGroup"]).1
          "InternetGateway").2,
        (deleteIfPresent (deleteIfPresent (destroySubresources delOk
          (delInstances cfg ((cfg.instances.filter fun kv =>
          node_names.contains kv.1).map Prod.fst)).1
          ["Subnet", "RouteTable", "SecurityGroup"]).1
          "InternetGateway").1 "Vpc").2,
        (deleteIfPresent (deleteIfPresent (deleteIfPresent
          (destroySubresources delOk (delInstances cfg
          ((cfg.instances.filter fun kv => node_names.contains kv.1).map
          Prod.fst)).1 ["Subnet", "RouteTable", "SecurityGroup"]).1
          "InternetGateway").1 "Vpc").1 "keypair").2,
        ?_, ?_, ?_, ?_, ?_, ?_⟩
      · rw [htr, destroySharedTail_trace_eq]
        simp [List.append_assoc]
      · intro p hp
        obtain ⟨n, hn⟩ := delInstances_events _ _ p hp
        rw [hn]
        rfl
      · intro p hp
        obtain ⟨k, hk, he⟩ := destroySubresources_events delOk _ _ p hp
        rcases List.mem_cons.mp hk with rfl | hk'
        · exact Or.inl he
        rcases List.mem_cons.mp hk' with rfl | hk''
        · exact Or.inr (Or.inl he)
        rcases List.mem_cons.mp hk'' with rfl | hk'''
        · exact Or.inr (Or.inr he)
        · cases hk'''
      · exact deleteIfPresent_events _ "InternetGateway"
      · exact deleteIfPresent_events _ "Vpc"
      · exact deleteIfPresent_events _ "keypair"
    · intro p hp hpre
      rw [htr] at hp
      rcases List.mem_append.mp hp with hp12 | hpT
      · rcases List.mem_append.mp hp12 with hpA | hpB
        · obtain ⟨n, hn⟩ := delInstances_events _ _ p hpA
          rw [hn] at hpre
          rcases hpre with h | h | h <;> cases h
        · rcases hpre with h | h | h <;>
            exact absurd (hkindB p hpB _ h) (by decide)
      · exact (htail p hpT).1
    · intro p hp hpre
      rw [htr] at hp
      rcases List.mem_append.mp hp with hp12 | hpT
      · rcases List.mem_append.mp hp12 with hpA | hpB
        · obtain ⟨n, hn⟩ := delInstances_events _ _ p hpA
          rw [hn] at hpre
          rcases hpre with h | h <;> cases h
        · rcases hpre with h | h <;>
            exact absurd (hkindB p hpB _ h) (by decide)
      · exact (htail p hpT).2.1 hpre
    · intro p hp hpre
      rw [htr] at hp
      rcases List.mem_append.mp hp with hp12 | hpT
      · rcases List.mem_append.mp hp12 with hpA | hpB
        · obtain ⟨n, hn⟩ := delInstances_events _ _ p hpA
          rw [hn] at hpre
          cases hpre
        · exact absurd (hkindB p hpB _ hpre) (by decide)
      · exact (htail p hpT).2.2 hpre
  · have htr := aws_destroy_trace_eq_nonempty delOk cfg node_names hE
    have hkN : ∀ p ∈ (aws_destroy_resources delOk cfg node_names).2.2,
        eventKindOf p.1 = none := by
      intro p hp
      rw [htr] at hp
      obtain ⟨n, hn⟩ := delInstances_events _ _ p hp
      rw [hn]
      rfl
    refine ⟨⟨(aws_destroy_resources delOk cfg node_names).2.2,
        [], [], [], [], by simp, hkN, ?_, ?_, ?_, ?_⟩, ?_, ?_, ?_⟩
    · intro p hp; cases hp
    · intro p hp; cases hp
    · intro p hp; cases hp
    · intro p hp; cases hp
    · intro p hp hpre
      rw [hkN p hp] at hpre
      rcases hpre with h | h | h <;> cases h
    · intro p hp hpre
      rw [hkN p hp] at hpre
      rcases hpre with h | h <;> cases h
    · intro p hp hpre
      rw [hkN p hp] at hpre
      cases hpre

/-- Witness for Claim C6 (amended) at a concrete teardown: in the
two-node fixture with an always-succeeding provider, the Vpc delete
attempt happens at a state where the Subnet, RouteTable and
SecurityGroup entries are already gone. -/
theorem destroy_reverse_dependency_order_witness :
    alookup (AwsConfig.mk ([] : List (String × NodeData))
        [("Vpc", "vpc-1"), ("keypair", "kp-1")]).shared "Subnet" = none
  ∧ alookup (AwsConfig.mk ([] : List (String × NodeData))
        [("Vpc", "vpc-1"), ("keypair", "kp-1")]).shared "RouteTable" = none
  ∧ alookup (AwsConfig.mk ([] : List (String × NodeData))
        [("Vpc", "vpc-1"), ("keypair", "kp-1")]).shared "SecurityGroup"
      = none :=
  (destroy_reverse_dependency_order okDelete awsFixture ["w1", "w2"]
      (by decide) (fun kind _ => ⟨0, by decide, rfl⟩)).2.1
    (DestroyEvent.attemptDelete "Vpc",
     AwsConfig.mk ([] : List (String × NodeData))
       [("Vpc", "vpc-1"), ("keypair", "kp-1")])
    (by decide) (Or.inr (Or.inl rfl))

end CloudDeploy
